import Mathlib

/-!
Verification of the `spm.cmake` template repository.

The repository consists of one source file,
`src/templates/lib/src/PROJECT_SLUG/fwd.hh`: a 24-line forward-declaration
header stub containing a single placeholder token `@PROJECT_NAMESPACE@`
that a template-expansion tool substitutes with a concrete project
namespace.  We embed the file's text as a list of characters, model the
token-substitution mechanism as left-to-right non-rescanning replacement
of the placeholder, and prove the syntactic properties of the stub and of
the substituted text.
-/

set_option maxRecDepth 8000

namespace Spm

/-- The verbatim content of `src/templates/lib/src/PROJECT_SLUG/fwd.hh`
(526 bytes, 23 newline characters, no trailing newline). -/
def fwdText : List Char :=
  ("#pragma once\n\n// Include forward declaration headers from dependencies\n// Example: #include <clean-core/fwd.hh>\n\nnamespace @PROJECT_NAMESPACE@\n\x7b\n\n// Forward declarations\n// Examples:\n//   struct Foo;\n//   class Bar;\n//   template <class T, class = void>\n//   class TemplatedClass;\n//   enum class MyEnum : uint32_t;\n\n// Small, commonly used enums can be fully defined here\n\n// Common type aliases\n// Example: using IntTemplatedClass = TemplatedClass<int>\n\n// NOTE: Default template arguments should always be specified here\n\n\x7d").data

/-- The placeholder marker on line 6 of `fwd.hh`: the project-namespace
token wrapped in `@` delimiter characters. -/
def placeholder : List Char := "@PROJECT_NAMESPACE@".data

/-- The placeholder marker without its leading `@` delimiter (used to put
`placeholder` in head-normal form for the substitution scanner). -/
def patTail : List Char := "PROJECT_NAMESPACE@".data

/-- `startsWith p s` is `true` when the list `p` is an initial segment
of the list `s`. -/
def startsWith : List Char → List Char → Bool
  | [], _ => true
  | _ :: _, [] => false
  | p :: ps, c :: cs => p == c && startsWith ps cs

/-- Left-to-right replacement of every occurrence of the (nonempty)
pattern `p :: ps` by `repl`; the replacement text is not rescanned, the
scan resumes after the matched occurrence. -/
def replaceFrom (p : Char) (ps repl : List Char) : List Char → List Char
  | [] => []
  | c :: cs =>
    if startsWith (p :: ps) (c :: cs) then
      repl ++ replaceFrom p ps repl (cs.drop ps.length)
    else
      c :: replaceFrom p ps repl cs
termination_by s => s.length
decreasing_by
  · simp only [List.length_drop, List.length_cons]
    omega
  · simp only [List.length_cons]
    omega

/-- Token substitution: replace every occurrence of the token `pat` in
`text` by `repl` (an empty token substitutes nothing). -/
def substToken (pat repl text : List Char) : List Char :=
  match pat with
  | [] => text
  | p :: ps => replaceFrom p ps repl text

/-- The result of the template-expansion tool on `fwd.hh`: every
occurrence of `@PROJECT_NAMESPACE@` replaced by `repl`. -/
def substFwd (repl : List Char) : List Char :=
  substToken placeholder repl fwdText

/-- Number of (left-to-right, non-overlapping) occurrences of the
pattern `p :: ps` in a text. -/
def countOcc (p : Char) (ps : List Char) : List Char → Nat
  | [] => 0
  | c :: cs =>
    if startsWith (p :: ps) (c :: cs) then
      1 + countOcc p ps (cs.drop ps.length)
    else
      countOcc p ps cs
termination_by s => s.length
decreasing_by
  · simp only [List.length_drop, List.length_cons]
    omega
  · simp only [List.length_cons]
    omega

/-- Prepend a character to the first line of a line list. -/
def consHead (c : Char) : List (List Char) → List (List Char)
  | [] => [[c]]
  | l :: ls => (c :: l) :: ls

/-- Split a character list into its lines at `\n` (a text with `k`
newline characters has `k + 1` lines). -/
def splitLines : List Char → List (List Char)
  | [] => [[]]
  | c :: cs =>
    if c = '\n' then [] :: splitLines cs
    else consHead c (splitLines cs)

/-- The lines of the unsubstituted `fwd.hh`. -/
def fwdLines : List (List Char) := splitLines fwdText

/-- First character of a C++ identifier: a letter or an underscore. -/
def isIdentStart (c : Char) : Bool := c.isAlpha || c == '_'

/-- Subsequent character of a C++ identifier: a letter, a digit or an
underscore. -/
def isIdentChar (c : Char) : Bool := c.isAlphanum || c == '_'

/-- `isCppIdent s` holds when `s` is a valid C++ identifier: nonempty,
starting with a letter or underscore, continuing with letters, digits or
underscores. -/
def isCppIdent : List Char → Bool
  | [] => false
  | c :: cs => isIdentStart c && cs.all isIdentChar

/-- Brace-balance scanner: walks the text tracking the nesting depth of
curly braces; `true` when the depth never goes negative and returns to
zero at the end. -/
def braceCheck : List Char → Nat → Bool
  | [], d => d == 0
  | c :: cs, d =>
    if c == '\x7b' then braceCheck cs (d + 1)
    else if c == '\x7d' then
      if d == 0 then false else braceCheck cs (d - 1)
    else braceCheck cs d

/-- The curly braces of a text are balanced: the nesting depth starts at
zero, never goes negative and ends at zero. -/
def balancedBraces (s : List Char) : Bool := braceCheck s 0

/-- Preprocessor-conditional balance scanner over the lines of a file:
a line starting with `#if` (this covers `#if`, `#ifdef`, `#ifndef`)
opens a conditional, a line starting with `#endif` closes one; `true`
when the conditionals are balanced. -/
def condDepth : List (List Char) → Nat → Bool
  | [], d => d == 0
  | l :: ls, d =>
    if startsWith "#if".data l then condDepth ls (d + 1)
    else if startsWith "#endif".data l then
      if d == 0 then false else condDepth ls (d - 1)
    else condDepth ls d

/-- A file's multiple-inclusion guard is balanced: every conditional
directive opened is closed (a `#pragma once` file has none to balance). -/
def guardBalanced (lines : List (List Char)) : Bool := condDepth lines 0

/-- The text of `fwd.hh` strictly before the placeholder: lines 1-5 and
the `namespace ` prefix of line 6. -/
def preText : List Char :=
  ("#pragma once\n\n// Include forward declaration headers from dependencies\n// Example: #include <clean-core/fwd.hh>\n\nnamespace ").data

/-- The text of `fwd.hh` strictly after the placeholder: the line-6
terminator and lines 7-24. -/
def postText : List Char :=
  ("\n\x7b\n\n// Forward declarations\n// Examples:\n//   struct Foo;\n//   class Bar;\n//   template <class T, class = void>\n//   class TemplatedClass;\n//   enum class MyEnum : uint32_t;\n\n// Small, commonly used enums can be fully defined here\n\n// Common type aliases\n// Example: using IntTemplatedClass = TemplatedClass<int>\n\n// NOTE: Default template arguments should always be specified here\n\n\x7d").data

/-- The 24 lines of the substituted `fwd.hh`: identical to the lines of
the template except that line 6 reads `namespace ` followed by the
replacement value. -/
def substLines (repl : List Char) : List (List Char) :=
  [ "#pragma once".data
  , []
  , "// Include forward declaration headers from dependencies".data
  , "// Example: #include <clean-core/fwd.hh>".data
  , []
  , "namespace ".data ++ repl
  , "\x7b".data
  , []
  , "// Forward declarations".data
  , "// Examples:".data
  , "//   struct Foo;".data
  , "//   class Bar;".data
  , "//   template <class T, class = void>".data
  , "//   class TemplatedClass;".data
  , "//   enum class MyEnum : uint32_t;".data
  , []
  , "// Small, commonly used enums can be fully defined here".data
  , []
  , "// Common type aliases".data
  , "// Example: using IntTemplatedClass = TemplatedClass<int>".data
  , []
  , "// NOTE: Default template arguments should always be specified here".data
  , []
  , "\x7d".data ]

/-- A line is a line comment: it begins with `//`. -/
def isLineComment (l : List Char) : Bool := startsWith "//".data l

/-- The five line categories enumerated for the template stub: blank,
line comment, the `#pragma once` directive, the namespace-opening line,
or the closing brace. -/
abbrev lineOkClaim (l : List Char) : Prop :=
  l = [] ∨ isLineComment l = true ∨ l = "#pragma once".data ∨
    l = "namespace @PROJECT_NAMESPACE@".data ∨ l = "\x7d".data

/-- The line categories of the template stub, amended with the opening
brace of the namespace body, which sits on its own line. -/
abbrev lineOkAmended (l : List Char) : Prop :=
  lineOkClaim l ∨ l = "\x7b".data

/-- Modelled from the spec: the template's consumer toolchain (a C++
preprocessor honouring `#pragma once`) is external to this repository.
One inclusion step: a file whose first line is `#pragma once` is
contributed only if it has not been seen before, and is then marked
seen; any other file is contributed unconditionally.  Returns the
updated seen flag and the contributed lines. -/
def includeOnce (seen : Bool) (lines : List (List Char)) :
    Bool × List (List Char) :=
  if lines.head? = some "#pragma once".data then
    if seen then (seen, []) else (true, lines)
  else (seen, lines)

/-- Modelled from the spec: including the same file `n` times in a
translation unit, threading the preprocessor's seen flag, and
concatenating the contributed content. -/
def includeRep : Nat → Bool → List (List Char) → List (List Char)
  | 0, _, _ => []
  | n + 1, seen, lines =>
    (includeOnce seen lines).2 ++ includeRep n (includeOnce seen lines).1 lines

/-! ### Basic lemmas about the substitution scanner -/

lemma startsWith_cons_head {p c : Char} {ps cs : List Char}
    (h : startsWith (p :: ps) (c :: cs) = true) : p = c := by
  simp only [startsWith, Bool.and_eq_true, beq_iff_eq] at h
  exact h.1

lemma startsWith_self_append (a t : List Char) : startsWith a (a ++ t) = true := by
  induction a with
  | nil => rfl
  | cons c cs ih => simp [startsWith, ih]

lemma replaceFrom_of_not_mem (p : Char) (ps repl : List Char) :
    ∀ s : List Char, p ∉ s → replaceFrom p ps repl s = s := by
  intro s
  induction s with
  | nil => intro _; simp [replaceFrom]
  | cons c cs ih =>
    intro h
    by_cases hm : startsWith (p :: ps) (c :: cs) = true
    · exact absurd (startsWith_cons_head hm ▸ List.mem_cons_self c cs) h
    · rw [replaceFrom, if_neg hm, ih (fun hc => h (List.mem_cons_of_mem c hc))]

lemma replaceFrom_append_of_not_mem (p : Char) (ps repl : List Char) :
    ∀ a t : List Char, p ∉ a →
      replaceFrom p ps repl (a ++ t) = a ++ replaceFrom p ps repl t := by
  intro a
  induction a with
  | nil => intro t _; rfl
  | cons c cs ih =>
    intro t h
    by_cases hm : startsWith (p :: ps) (c :: (cs ++ t)) = true
    · exact absurd (startsWith_cons_head hm ▸ List.mem_cons_self c cs) h
    · rw [List.cons_append, replaceFrom, if_neg hm,
        ih t (fun hc => h (List.mem_cons_of_mem c hc)), List.cons_append]

lemma replaceFrom_match (p : Char) (ps repl t : List Char) :
    replaceFrom p ps repl ((p :: ps) ++ t) = repl ++ replaceFrom p ps repl t := by
  have h1 : startsWith (p :: ps) ((p :: ps) ++ t) = true := startsWith_self_append _ _
  rw [List.cons_append] at h1 ⊢
  rw [replaceFrom, if_pos h1, List.drop_left]

/-! ### Decomposition of the template text around the placeholder -/

lemma placeholder_decomp : placeholder = '@' :: patTail := by decide

lemma fwdText_decomp : fwdText = preText ++ (placeholder ++ postText) := by decide

lemma at_not_mem_pre : '@' ∉ preText := by decide

lemma at_not_mem_post : '@' ∉ postText := by decide

/-- Substituting `repl` for the placeholder in `fwd.hh` yields exactly
the text before the placeholder, then `repl`, then the text after it. -/
theorem substFwd_eq (repl : List Char) :
    substFwd repl = preText ++ repl ++ postText := by
  show substToken placeholder repl fwdText = _
  rw [fwdText_decomp, placeholder_decomp]
  show replaceFrom '@' patTail repl (preText ++ (('@' :: patTail) ++ postText)) = _
  rw [replaceFrom_append_of_not_mem '@' patTail repl preText
    (('@' :: patTail) ++ postText) at_not_mem_pre,
    replaceFrom_match, replaceFrom_of_not_mem '@' patTail repl postText at_not_mem_post,
    ← List.append_assoc]

/-! ### Characters of a valid C++ identifier -/

lemma isCppIdent_mem {s : List Char} (h : isCppIdent s = true) {c : Char}
    (hc : c ∈ s) : isIdentStart c = true ∨ isIdentChar c = true := by
  cases s with
  | nil => cases hc
  | cons a as =>
    simp only [isCppIdent, Bool.and_eq_true, List.all_eq_true] at h
    rcases List.mem_cons.mp hc with rfl | hmem
    · exact Or.inl h.1
    · exact Or.inr (h.2 c hmem)

lemma isCppIdent_not_mem {s : List Char} (h : isCppIdent s = true) {c : Char}
    (hstart : isIdentStart c = false) (hchar : isIdentChar c = false) : c ∉ s := by
  intro hc
  rcases isCppIdent_mem h hc with h1 | h1
  · rw [hstart] at h1; cases h1
  · rw [hchar] at h1; cases h1

/-! ### C1: substitution leaves no dangling placeholder marker -/

/-- C1: for every replacement value that is a valid C++ identifier (in
particular, containing no `@` character), substituting it for the
placeholder token `@PROJECT_NAMESPACE@` in `fwd.hh` yields a text in
which no `@`-delimited marker remains: no `@` character occurs anywhere
in the result. -/
theorem C1_subst_no_dangling_marker (repl : List Char)
    (h : isCppIdent repl = true) : '@' ∉ substFwd repl := by
  rw [substFwd_eq]
  intro hm
  rcases List.mem_append.mp hm with h1 | h2
  · rcases List.mem_append.mp h1 with h3 | h4
    · exact at_not_mem_pre h3
    · exact isCppIdent_not_mem h (by decide) (by decide) h4
  · exact at_not_mem_post h2

/-- Witness for C1 at the concrete replacement value `my_lib`. -/
theorem C1_witness :
    isCppIdent "my_lib".data = true ∧ '@' ∉ substFwd "my_lib".data :=
  ⟨by decide, C1_subst_no_dangling_marker "my_lib".data (by decide)⟩

/-! ### C2: substitution preserves brace balance -/

lemma braceCheck_append_of_no_brace {a : List Char}
    (h : ∀ c ∈ a, (c == '\x7b') = false ∧ (c == '\x7d') = false) :
    ∀ t d, braceCheck (a ++ t) d = braceCheck t d := by
  induction a with
  | nil => intro t d; rfl
  | cons c cs ih =>
    intro t d
    have hc := h c (List.mem_cons_self c cs)
    have h1 : ¬ ((c == '\x7b') = true) := by rw [hc.1]; exact Bool.false_ne_true
    have h2 : ¬ ((c == '\x7d') = true) := by rw [hc.2]; exact Bool.false_ne_true
    rw [List.cons_append, braceCheck, if_neg h1, if_neg h2]
    exact ih (fun x hx => h x (List.mem_cons_of_mem c hx)) t d

lemma not_mem_no_brace {repl : List Char} (hob : '\x7b' ∉ repl)
    (hcb : '\x7d' ∉ repl) :
    ∀ c ∈ repl, (c == '\x7b') = false ∧ (c == '\x7d') = false := by
  intro c hc
  constructor
  · exact beq_eq_false_iff_ne.mpr (fun he => hob (he ▸ hc))
  · exact beq_eq_false_iff_ne.mpr (fun he => hcb (he ▸ hc))

/-- C2: token substitution preserves brace balance: for every
replacement value that is a valid C++ identifier (hence containing no
brace character), the substituted text of `fwd.hh` has exactly one
opening brace and exactly one closing brace, and its braces are
balanced (never negative nesting depth, ending at depth zero). -/
theorem C2_braces_balanced (repl : List Char) (h : isCppIdent repl = true) :
    (substFwd repl).count '\x7b' = 1 ∧ (substFwd repl).count '\x7d' = 1 ∧
      balancedBraces (substFwd repl) = true := by
  have hob : '\x7b' ∉ repl := isCppIdent_not_mem h (by decide) (by decide)
  have hcb : '\x7d' ∉ repl := isCppIdent_not_mem h (by decide) (by decide)
  have hpre : ∀ c ∈ preText, (c == '\x7b') = false ∧ (c == '\x7d') = false := by decide
  refine ⟨?_, ?_, ?_⟩
  · rw [substFwd_eq, List.count_append, List.count_append,
      List.count_eq_zero.mpr hob]
    decide
  · rw [substFwd_eq, List.count_append, List.count_append,
      List.count_eq_zero.mpr hcb]
    decide
  · show braceCheck (substFwd repl) 0 = true
    rw [substFwd_eq, List.append_assoc,
      braceCheck_append_of_no_brace hpre (repl ++ postText) 0,
      braceCheck_append_of_no_brace (not_mem_no_brace hob hcb) postText 0]
    decide

/-- Witness for C2 at the concrete replacement value `my_lib`. -/
theorem C2_witness :
    isCppIdent "my_lib".data = true ∧
      ((substFwd "my_lib".data).count '\x7b' = 1 ∧
        (substFwd "my_lib".data).count '\x7d' = 1 ∧
        balancedBraces (substFwd "my_lib".data) = true) :=
  ⟨by decide, C2_braces_balanced "my_lib".data (by decide)⟩

/-! ### Line structure of the substituted text -/

/-- The text of `fwd.hh` after line 6: lines 7-24 joined by newlines. -/
def postTail : List Char :=
  ("\x7b\n\n// Forward declarations\n// Examples:\n//   struct Foo;\n//   class Bar;\n//   template <class T, class = void>\n//   class TemplatedClass;\n//   enum class MyEnum : uint32_t;\n\n// Small, commonly used enums can be fully defined here\n\n// Common type aliases\n// Example: using IntTemplatedClass = TemplatedClass<int>\n\n// NOTE: Default template arguments should always be specified here\n\n\x7d").data

lemma splitLines_cons_nl (t : List Char) :
    splitLines ('\n' :: t) = [] :: splitLines t := by
  rw [splitLines, if_pos rfl]

lemma splitLines_append_nl {a : List Char} (h : '\n' ∉ a) (t : List Char) :
    splitLines (a ++ '\n' :: t) = a :: splitLines t := by
  induction a with
  | nil => exact splitLines_cons_nl t
  | cons c cs ih =>
    have hc : ¬ (c = '\n') := fun he => h (he ▸ List.mem_cons_self c cs)
    rw [List.cons_append, splitLines, if_neg hc,
      ih (fun hm => h (List.mem_cons_of_mem c hm))]
    rfl

lemma append_cons_assoc (a : List Char) (c : Char) (t X : List Char) :
    (a ++ c :: t) ++ X = a ++ c :: (t ++ X) := by
  rw [List.append_assoc, List.cons_append]

/-- For a replacement value with no newline character, the substituted
`fwd.hh` splits into exactly the 24 lines of `substLines`. -/
theorem splitLines_substFwd {repl : List Char} (h : '\n' ∉ repl) :
    splitLines (substFwd repl) = substLines repl := by
  have h0 : preText =
      "#pragma once".data ++ '\n' ::
        (([] : List Char) ++ '\n' ::
          ("// Include forward declaration headers from dependencies".data ++ '\n' ::
            ("// Example: #include <clean-core/fwd.hh>".data ++ '\n' ::
              (([] : List Char) ++ '\n' :: "namespace ".data)))) := by decide
  have hA : ∀ X : List Char, preText ++ X =
      "#pragma once".data ++ '\n' ::
        (([] : List Char) ++ '\n' ::
          ("// Include forward declaration headers from dependencies".data ++ '\n' ::
            ("// Example: #include <clean-core/fwd.hh>".data ++ '\n' ::
              (([] : List Char) ++ '\n' :: ("namespace ".data ++ X))))) := by
    intro X
    rw [h0, append_cons_assoc, append_cons_assoc, append_cons_assoc,
      append_cons_assoc, append_cons_assoc]
  have hpost : postText = '\n' :: postTail := by decide
  have hns : '\n' ∉ "namespace ".data ++ repl := by
    intro hm
    rcases List.mem_append.mp hm with h1 | h1
    · exact absurd h1 (by decide)
    · exact h h1
  have htail : splitLines postTail = (substLines []).drop 6 := by decide
  have hl1 : '\n' ∉ "#pragma once".data := by decide
  have hl3 : '\n' ∉ "// Include forward declaration headers from dependencies".data := by
    decide
  have hl4 : '\n' ∉ "// Example: #include <clean-core/fwd.hh>".data := by decide
  have hnil : '\n' ∉ ([] : List Char) := by decide
  rw [substFwd_eq, List.append_assoc, hA (repl ++ postText), hpost,
    ← List.append_assoc, splitLines_append_nl hl1, splitLines_append_nl hnil,
    splitLines_append_nl hl3, splitLines_append_nl hl4,
    splitLines_append_nl hnil, splitLines_append_nl hns, htail]
  rfl

/-! ### C3: the substituted header has a well-formed inclusion guard -/

lemma isCppIdent_no_newline {repl : List Char} (h : isCppIdent repl = true) :
    '\n' ∉ repl :=
  isCppIdent_not_mem h (by decide) (by decide)

/-- C3: for every replacement value that is a valid C++ identifier, the
substituted `fwd.hh` has a balanced multiple-inclusion guard: its first
line is the `#pragma once` directive and the preprocessor conditionals
of its lines are balanced (there are none left open or stray). -/
theorem C3_include_guard (repl : List Char) (h : isCppIdent repl = true) :
    (splitLines (substFwd repl)).head? = some "#pragma once".data ∧
      guardBalanced (splitLines (substFwd repl)) = true := by
  rw [splitLines_substFwd (isCppIdent_no_newline h)]
  exact ⟨rfl, rfl⟩

/-- Witness for C3 at the concrete replacement value `my_lib`. -/
theorem C3_witness :
    isCppIdent "my_lib".data = true ∧
      ((splitLines (substFwd "my_lib".data)).head? = some "#pragma once".data ∧
        guardBalanced (splitLines (substFwd "my_lib".data)) = true) :=
  ⟨by decide, C3_include_guard "my_lib".data (by decide)⟩

/-! ### C7: the artifact is a 24-line stub -/

/-- C7: the file `fwd.hh` consists of exactly 24 lines of text. -/
theorem C7_24_line_stub : fwdLines.length = 24 := by decide

/-! ### C8: substitution changes only line 6 -/

/-- Counterexample to C8 as stated: for the replacement value `x\ny`
(which contains a newline), line 7 of the substituted text is not
identical to line 7 of the original file, so the frame property does
not hold for *every* replacement value. -/
theorem C8_counterexample :
    ¬ ((splitLines (substFwd ('x' :: '\n' :: 'y' :: []))).get? 6 =
        (splitLines fwdText).get? 6) := by
  rw [substFwd_eq]
  decide

/-- C8 (amended): for every replacement value containing no newline
character (in particular, for every valid C++ identifier), the
substituted text still has 24 lines, and every line other than line 6
is character-for-character identical to the corresponding line of the
original file. -/
theorem C8_frame (repl : List Char) (h : '\n' ∉ repl) :
    (splitLines (substFwd repl)).length = 24 ∧
      (splitLines (substFwd repl)).take 5 = fwdLines.take 5 ∧
      (splitLines (substFwd repl)).drop 6 = fwdLines.drop 6 := by
  rw [splitLines_substFwd h]
  refine ⟨rfl, ?_, ?_⟩
  · show ["#pragma once".data, [],
      "// Include forward declaration headers from dependencies".data,
      "// Example: #include <clean-core/fwd.hh>".data, []] = fwdLines.take 5
    decide
  · show (substLines []).drop 6 = fwdLines.drop 6
    decide

/-- Witness for C8 at the concrete replacement value `my_lib`. -/
theorem C8_witness :
    ('\n' ∉ "my_lib".data) ∧
      ((splitLines (substFwd "my_lib".data)).length = 24 ∧
        (splitLines (substFwd "my_lib".data)).take 5 = fwdLines.take 5 ∧
        (splitLines (substFwd "my_lib".data)).drop 6 = fwdLines.drop 6) :=
  ⟨by decide, C8_frame "my_lib".data (by decide)⟩

/-! ### C9: substituting twice equals substituting once -/

lemma startsWith_exists {p : List Char} :
    ∀ s, startsWith p s = true → ∃ t, p ++ t = s := by
  induction p with
  | nil => intro s _; exact ⟨s, rfl⟩
  | cons c cs ih =>
    intro s hs
    cases s with
    | nil => cases hs
    | cons d ds =>
      simp only [startsWith, Bool.and_eq_true, beq_iff_eq] at hs
      obtain ⟨t, ht⟩ := ih ds hs.2
      exact ⟨t, by rw [List.cons_append, ht, hs.1]⟩

lemma replaceFrom_of_no_occur (p : Char) (ps repl : List Char) :
    ∀ s : List Char, ¬ (p :: ps) <:+: s → replaceFrom p ps repl s = s := by
  intro s
  induction s with
  | nil => intro _; simp [replaceFrom]
  | cons c cs ih =>
    intro h
    by_cases hm : startsWith (p :: ps) (c :: cs) = true
    · obtain ⟨t, ht⟩ := startsWith_exists (c :: cs) hm
      exact absurd ⟨[], t, by rw [List.nil_append, ht]⟩ h
    · rw [replaceFrom, if_neg hm, ih ?_]
      intro hocc
      obtain ⟨u, v, huv⟩ := hocc
      exact h ⟨c :: u, v, by rw [List.cons_append, List.cons_append, huv]⟩

lemma infix_cons_strip {c : Char} {qs b : List Char} :
    ∀ a : List Char, c ∉ a → (c :: qs) <:+: (a ++ b) → (c :: qs) <:+: b := by
  intro a
  induction a with
  | nil => intro _ h; exact h
  | cons x xs ih =>
    intro ha h
    obtain ⟨u, v, huv⟩ := h
    cases u with
    | nil =>
      simp only [List.nil_append, List.cons_append] at huv
      injection huv with h1 _
      exact absurd (by rw [h1]; exact List.mem_cons_self x xs) ha
    | cons y u =>
      simp only [List.cons_append] at huv
      injection huv with _ h2
      exact ih (fun hc => ha (List.mem_cons_of_mem x hc)) ⟨u, v, h2⟩

lemma infix_snoc_strip {c : Char} {qs b : List Char}
    (a : List Char) (ha : c ∉ a) (h : (qs ++ [c]) <:+: (b ++ a)) :
    (qs ++ [c]) <:+: b := by
  have h1 : (c :: qs.reverse) <:+: (a.reverse ++ b.reverse) := by
    have h0 := List.reverse_infix.mpr h
    rw [List.reverse_append, List.reverse_append] at h0
    exact h0
  have h2 := infix_cons_strip a.reverse (fun hc => ha (List.mem_reverse.mp hc)) h1
  have h3 : (qs ++ [c]).reverse <:+: b.reverse := by
    rw [List.reverse_append]
    exact h2
  exact List.reverse_infix.mp h3

lemma placeholder_snoc : placeholder = "@PROJECT_NAMESPACE".data ++ ['@'] := by
  decide

/-- C9: token substitution on `fwd.hh` is idempotent: for every
replacement value that does not itself contain the token
`@PROJECT_NAMESPACE@`, substituting the token a second time with the
same replacement value leaves the once-substituted text unchanged. -/
theorem C9_idempotent (repl : List Char) (h : ¬ placeholder <:+: repl) :
    substToken placeholder repl (substFwd repl) = substFwd repl := by
  have hno : ¬ placeholder <:+: (preText ++ repl ++ postText) := by
    intro hocc
    rw [List.append_assoc] at hocc
    have h1 : placeholder <:+: (repl ++ postText) := by
      rw [placeholder_decomp] at hocc ⊢
      exact infix_cons_strip preText at_not_mem_pre hocc
    have h2 : placeholder <:+: repl := by
      rw [placeholder_snoc] at h1 ⊢
      exact infix_snoc_strip postText at_not_mem_post h1
    exact h h2
  rw [substFwd_eq]
  rw [placeholder_decomp] at hno
  show replaceFrom '@' patTail repl (preText ++ repl ++ postText) = _
  exact replaceFrom_of_no_occur '@' patTail repl (preText ++ repl ++ postText) hno

/-- Witness for C9 at the concrete replacement value `my_lib`. -/
theorem C9_witness :
    (¬ placeholder <:+: "my_lib".data) ∧
      substToken placeholder "my_lib".data (substFwd "my_lib".data) =
        substFwd "my_lib".data := by
  have hn : ¬ placeholder <:+: "my_lib".data := fun hc =>
    absurd hc.length_le (by decide)
  exact ⟨hn, C9_idempotent "my_lib".data hn⟩

/-! ### C4: the unsubstituted template is not valid source -/

/-- C4: before substitution `fwd.hh` is not valid source: line 6 of the
template is the namespace declaration whose name is the literal
placeholder `@PROJECT_NAMESPACE@`, and that token is not a valid C++
namespace identifier because it contains the character `@`. -/
theorem C4_unsubstituted_invalid :
    (splitLines fwdText).get? 5 = some ("namespace ".data ++ placeholder) ∧
      isCppIdent placeholder = false ∧ '@' ∈ placeholder := by decide

/-! ### C5: every line of the stub is inert boilerplate -/

/-- Counterexample to C5 as stated: line 7 of `fwd.hh` is the opening
brace `\x7b` of the namespace body, which is none of the five listed
categories (blank, `//` comment, `#pragma once`, the namespace-opening
line, the closing brace). -/
theorem C5_counterexample : ¬ (∀ l ∈ fwdLines, lineOkClaim l) := by decide

/-- C5 (amended): every line of `fwd.hh` is blank, a `//` line comment,
the directive `#pragma once`, the namespace-opening line, the opening
brace of the namespace body, or the closing brace; in particular no
declaration or definition of any entity appears in the file. -/
theorem C5_lines_inert (l : List Char) (h : l ∈ fwdLines) : lineOkAmended l := by
  have H : ∀ x ∈ fwdLines, lineOkAmended x := by decide
  exact H l h

/-- Witness for C5 at the concrete first line of the file. -/
theorem C5_witness : lineOkAmended "#pragma once".data :=
  C5_lines_inert "#pragma once".data (by decide)

/-! ### C6: exactly one placeholder marker, on line 6 -/

lemma countOcc_of_not_mem (p : Char) (ps : List Char) :
    ∀ s : List Char, p ∉ s → countOcc p ps s = 0 := by
  intro s
  induction s with
  | nil => intro _; simp [countOcc]
  | cons c cs ih =>
    intro h
    by_cases hm : startsWith (p :: ps) (c :: cs) = true
    · exact absurd (startsWith_cons_head hm ▸ List.mem_cons_self c cs) h
    · rw [countOcc, if_neg hm, ih (fun hc => h (List.mem_cons_of_mem c hc))]

lemma countOcc_append_of_not_mem (p : Char) (ps : List Char) :
    ∀ a t : List Char, p ∉ a → countOcc p ps (a ++ t) = countOcc p ps t := by
  intro a
  induction a with
  | nil => intro t _; rfl
  | cons c cs ih =>
    intro t h
    by_cases hm : startsWith (p :: ps) (c :: (cs ++ t)) = true
    · exact absurd (startsWith_cons_head hm ▸ List.mem_cons_self c cs) h
    · rw [List.cons_append, countOcc, if_neg hm,
        ih t (fun hc => h (List.mem_cons_of_mem c hc))]

lemma countOcc_match (p : Char) (ps t : List Char) :
    countOcc p ps ((p :: ps) ++ t) = 1 + countOcc p ps t := by
  have h1 : startsWith (p :: ps) ((p :: ps) ++ t) = true := startsWith_self_append _ _
  rw [List.cons_append] at h1 ⊢
  rw [countOcc, if_pos h1, List.drop_left]

/-- C6: the content of `fwd.hh` contains exactly one occurrence of the
placeholder marker `@PROJECT_NAMESPACE@`; it is the name in the
namespace declaration on line 6, and the file contains exactly two `@`
characters — the two delimiters of that single marker — so no other
`@`-delimited marker appears anywhere in the file. -/
theorem C6_unique_marker :
    countOcc '@' patTail fwdText = 1 ∧
      (splitLines fwdText).get? 5 = some ("namespace ".data ++ placeholder) ∧
      fwdText.count '@' = 2 := by
  refine ⟨?_, by decide, by decide⟩
  rw [fwdText_decomp, placeholder_decomp,
    countOcc_append_of_not_mem '@' patTail preText (('@' :: patTail) ++ postText)
      at_not_mem_pre,
    countOcc_match, countOcc_of_not_mem '@' patTail postText at_not_mem_post]

/-! ### C10: multiple inclusion is idempotent via `#pragma once` -/

/-- C10: the first line of `fwd.hh` is exactly `#pragma once` (there is
no `#ifndef`-style guard), substitution keeps that directive as the
first line of the substituted header, and under the modelled
`#pragma once` preprocessor semantics, including the substituted header
`n ≥ 1` times in a translation unit contributes its content exactly
once. -/
theorem C10_pragma_once (repl : List Char) (n : Nat) (h : '\n' ∉ repl)
    (hn : 1 ≤ n) :
    (splitLines fwdText).get? 0 = some "#pragma once".data ∧
      (splitLines (substFwd repl)).get? 0 = some "#pragma once".data ∧
      includeRep n false (splitLines (substFwd repl)) =
        splitLines (substFwd repl) := by
  rw [splitLines_substFwd h]
  refine ⟨by decide, rfl, ?_⟩
  obtain ⟨m, rfl⟩ : ∃ m, n = m + 1 := ⟨n - 1, by omega⟩
  have hstep : includeOnce false (substLines repl) = (true, substLines repl) := rfl
  have hseen : includeOnce true (substLines repl) = (true, []) := rfl
  have hrep : ∀ k, includeRep k true (substLines repl) = [] := by
    intro k
    induction k with
    | zero => rfl
    | succ k ih =>
      rw [includeRep, hseen]
      exact ih
  rw [includeRep, hstep, hrep m]
  exact List.append_nil (substLines repl)

/-- Witness for C10 at the concrete replacement value `my_lib` and two
inclusions. -/
theorem C10_witness :
    ('\n' ∉ "my_lib".data) ∧ 1 ≤ 2 ∧
      ((splitLines fwdText).get? 0 = some "#pragma once".data ∧
        (splitLines (substFwd "my_lib".data)).get? 0 =
          some "#pragma once".data ∧
        includeRep 2 false (splitLines (substFwd "my_lib".data)) =
          splitLines (substFwd "my_lib".data)) :=
  ⟨by decide, by decide, C10_pragma_once "my_lib".data 2 (by decide) (by decide)⟩

end Spm
